import Mathlib

/-!
Shallow embedding of the extraction engine of `math_verify/parser.py`.

The regex engine (`re.finditer`) and the external algebra service
(`latex2sympy`, `sympy.parsing.parse_expr`, `normalize_latex`, together with
the `timeout` guard and the `should_treat_as_complex` heuristic that are
folded into `parse_latex_with_timeout` / `parse_expr_with_timeout`) are not
part of the embedded program: they appear as oracle parameters.  A parse
oracle returns `Except Unit Value`, where `.error ()` stands for any raised
exception (timeout, malformed input, unsupported construct).  Every function
of the parser module itself is embedded as an executable Lean definition.
-/

namespace MathVerify

/-- Embedded sympy values: `Number` (as a rational), `Rational n d`,
unevaluated `Mul`, and opaque results handed back by the external algebra
service (`atom`). -/
inductive Value where
  | num (q : ℚ)
  | rat (n d : ℤ)
  | mul (a b : Value)
  | atom (id : ℕ)
deriving DecidableEq

/-- Embeds `latex2sympy2_extended.NormalizationConfig` (six boolean flags). -/
structure NormalizationConfig where
  basic_latex : Bool
  units : Bool
  malformed_operators : Bool
  nits : Bool
  boxed : Bool
  equations : Bool
deriving DecidableEq

/-- Embeds the frozen dataclass `LatexExtractionConfig`. -/
structure LatexExtractionConfig where
  try_extract_without_anchor : Bool
  boxed_match_priority : Int
  normalization_config : NormalizationConfig
deriving DecidableEq

/-- Embeds the frozen dataclass `ExprExtractionConfig`. -/
structure ExprExtractionConfig where
  try_extract_without_anchor : Bool
deriving DecidableEq

/-- The default `NormalizationConfig` built in `LatexExtractionConfig`. -/
def defaultNormalizationConfig : NormalizationConfig :=
  ⟨true, true, true, true, true, true⟩

/-- The default `LatexExtractionConfig()` (anchorless extraction on, boxed
priority 50, full normalization). -/
def defaultLatexExtractionConfig : LatexExtractionConfig :=
  ⟨true, 50, defaultNormalizationConfig⟩

/-- Embeds the union `ExtractionTarget = LatexExtractionConfig | ExprExtractionConfig`. -/
inductive ExtractionTarget where
  | latex (cfg : LatexExtractionConfig)
  | expr (cfg : ExprExtractionConfig)
deriving DecidableEq

/-- The named capture groups a regex match can carry (`match.groupdict()`),
collapsed over all patterns of both libraries.  A group that is absent or did
not participate is the empty string, matching Python truthiness tests. -/
structure MatchGroups where
  expr : String
  integer1 : String
  decimal1 : String
  integer2 : String
  decimal2 : String
  decimal3 : String
  integer3 : String
  percent : String
  latexDisplayDollar : String
  latexDisplayBracket : String
  latexInlineDollar : String
  latexInlineParenthesis : String
  latexInlineBracket : String
  latexFraction : String
  latexBoxed : String
deriving DecidableEq

/-- Helper to build `MatchGroups` for expression-library matches (all latex
groups empty). -/
def groupsOf (e i1 d1 i2 d2 d3 i3 pct : String) : MatchGroups :=
  ⟨e, i1, d1, i2, d2, d3, i3, pct, "", "", "", "", "", "", ""⟩

/-- Helper to build `MatchGroups` for latex-library matches. -/
def latexGroupsOf (dd db idl ip ib fr bx pct : String) : MatchGroups :=
  ⟨"", "", "", "", "", "", "", pct, dd, db, idl, ip, ib, fr, bx⟩

/-- Embeds `next((val for name, val in groups.items() if ... and val), "")`:
the first group value in dict order that is truthy (non-empty). -/
def firstTruthy (l : List String) : String :=
  (l.find? (fun s => !s.isEmpty)).getD ""

/-- The first truthy group whose name starts with `integer`, in groupdict
order (`integer1`, `integer2`, `integer3`). -/
def integerGroup (g : MatchGroups) : String :=
  firstTruthy [g.integer1, g.integer2, g.integer3]

/-- The first truthy group whose name starts with `decimal`, in groupdict
order (`decimal1`, `decimal2`, `decimal3`). -/
def decimalGroup (g : MatchGroups) : String :=
  firstTruthy [g.decimal1, g.decimal2, g.decimal3]

/-- The first truthy group whose name starts with `latex`, in groupdict order. -/
def latexGroup (g : MatchGroups) : String :=
  firstTruthy [g.latexDisplayDollar, g.latexDisplayBracket, g.latexInlineDollar,
    g.latexInlineParenthesis, g.latexInlineBracket, g.latexFraction, g.latexBoxed]

/-- Embeds `str.translate(str.maketrans("", "", ", "))`: delete every comma
and space character. -/
def removeCommaSpace (s : String) : String :=
  ⟨s.data.filter (fun c => !(c = ',' || c = ' '))⟩

/-- Embeds `str.lstrip("0")`: drop leading `0` characters. -/
def lstripZeros (s : String) : String :=
  ⟨s.data.dropWhile (fun c => c = '0')⟩

/-- Embeds single-character `str.replace(a, b)` (both uses in the source
replace a single character by a single character). -/
def replaceChar (a b : Char) (s : String) : String :=
  ⟨s.data.map (fun c => if c = a then b else c)⟩

/-- Embeds `str.replace("^", "**")`. -/
def replaceCaret (s : String) : String :=
  ⟨s.data.flatMap (fun c => if c = '^' then ['*', '*'] else [c])⟩

/-- Numeric value of a digit character. -/
def digitVal (c : Char) : ℕ := c.toNat - 48

/-- Base-10 value of a digit list. -/
def natOfDigits (l : List Char) : ℕ :=
  l.foldl (fun acc c => 10 * acc + digitVal c) 0

/-- Split a character list at the first `.` (integer digits, fraction digits). -/
def splitAtDot (l : List Char) : List Char × List Char :=
  (l.takeWhile (fun c => c ≠ '.'), (l.dropWhile (fun c => c ≠ '.')).drop 1)

/-- Numerator of the decimal written by an unsigned digit list with an
optional dot: `"12.34"` gives `1234`. -/
def decimalNum (l : List Char) : ℤ :=
  (natOfDigits (splitAtDot l).1 * 10 ^ (splitAtDot l).2.length +
    natOfDigits (splitAtDot l).2 : ℕ)

/-- Embeds `sympy.Number(s)` on the decimal strings `extract_expr` builds:
optional leading minus, digits, optional `.` and fraction digits. -/
def decimalOfString (s : String) : ℚ :=
  match s.data with
  | '-' :: rest => mkRat (-decimalNum rest) (10 ^ (splitAtDot rest).2.length)
  | l => mkRat (decimalNum l) (10 ^ (splitAtDot l).2.length)

/-- Embeds `convert_to_pct`: `sympy.Mul(number, sympy.Rational(1, 100),
evaluate=False)` — an unevaluated product node. -/
def convert_to_pct (number : Value) : Value :=
  Value.mul number (Value.rat 1 100)

/-- Embeds `extract_expr`.  `parse_expr_with_timeout` is the algebra-service
oracle (`.error ()` = exception or timeout); the `try/except` of the source
is the `match` on its result. -/
def extract_expr (parse_expr_with_timeout : String → Except Unit Value)
    (m : MatchGroups) : Option Value × String :=
  let expr := m.expr
  let integer := integerGroup m
  let decimal := decimalGroup m
  let is_percentage := m.percent ≠ ""
  if integer ≠ "" ∨ decimal ≠ "" then
    let integer := lstripZeros (removeCommaSpace integer)
    let integer := if integer.length = 0 then "0" else integer
    let decimal := replaceChar ',' '.' decimal
    let number_str := integer ++ decimal
    let number := Value.num (decimalOfString number_str)
    let number := if is_percentage then convert_to_pct number else number
    (some number, number_str)
  else if expr ≠ "" then
    match parse_expr_with_timeout (replaceCaret (replaceChar '\n' ' ' expr)) with
    | .ok v => (some v, expr)
    | .error _ => (none, expr)
  else
    (none, expr)

/-- The number string `extract_expr` builds in its number branch
(separators removed, leading zeros stripped with `"0"` reinserted, decimal
comma normalized to a dot, integer and decimal parts concatenated). -/
def number_str_of (m : MatchGroups) : String :=
  let integer := lstripZeros (removeCommaSpace (integerGroup m))
  (if integer.length = 0 then "0" else integer) ++ replaceChar ',' '.' (decimalGroup m)

/-- Embeds `extract_latex`.  `normalize_latex` and `parse_latex_with_timeout`
are the external normalization and parse oracles; the source's `try/except`
around the parse (and the percent conversion) is the `match` on the oracle
result. -/
def extract_latex (normalize_latex : String → NormalizationConfig → String)
    (parse_latex_with_timeout : String → Except Unit Value)
    (m : MatchGroups) (latex_config : LatexExtractionConfig) :
    Option Value × String :=
  let latex := latexGroup m
  let is_percentage := m.percent ≠ ""
  let normalized_latex := normalize_latex latex latex_config.normalization_config
  match parse_latex_with_timeout normalized_latex with
  | .error _ => (none, normalized_latex)
  | .ok parsed_latex =>
      (some (if is_percentage then convert_to_pct parsed_latex else parsed_latex),
        normalized_latex)

/-- The two latex sub-regexes the builder loops over
(`for latex_re in [latex_envs_re, latex_fraction]`). -/
inductive LatexBody where
  | latex_envs
  | latex_fraction
deriving DecidableEq

/-- Identities of the compiled regexes.  The regex engine itself is external
(an oracle when matching), so a pattern is represented by which source regex
it is; priorities are attached by the builders below. -/
inductive Pattern where
  | final_answer_prefixed_expr
  | final_answer_just_is_expr
  | equals_colon_expr
  | equals_expr
  | expr_with_anchors
  | number_with_anchors
  | final_answer_prefixed_latex (b : LatexBody)
  | final_answer_just_is_latex (b : LatexBody)
  | answer_colon_latex (b : LatexBody)
  | answer_latex (b : LatexBody)
  | plain_latex (b : LatexBody)
  | latex_boxed
deriving DecidableEq

/-- Embeds `lazy_expr_regex`: the anchored tiers at priorities 0, 50, 100,
200, and — only with `try_extract_without_anchor` — the bare expression and
number patterns at 300. -/
def lazy_expr_regex (expr_config : ExprExtractionConfig) : List (Pattern × Int) :=
  [(Pattern.final_answer_prefixed_expr, 0), (Pattern.final_answer_just_is_expr, 50),
   (Pattern.equals_colon_expr, 100), (Pattern.equals_expr, 200)] ++
  (if expr_config.try_extract_without_anchor then
    [(Pattern.expr_with_anchors, 300), (Pattern.number_with_anchors, 300)]
   else [])

/-- One iteration of the `for latex_re in [latex_envs_re, latex_fraction]`
loop in `lazy_latex_regex`: tiers 0, 50, 100, 200 and, with
`try_extract_without_anchor`, the plain pattern at 300. -/
def latex_anchor_tiers (b : LatexBody) (try_extract_without_anchor : Bool) :
    List (Pattern × Int) :=
  [(Pattern.final_answer_prefixed_latex b, 0), (Pattern.final_answer_just_is_latex b, 50),
   (Pattern.answer_colon_latex b, 100), (Pattern.answer_latex b, 200)] ++
  (if try_extract_without_anchor then [(Pattern.plain_latex b, 300)] else [])

/-- Embeds `lazy_latex_regex`: both loop iterations, then the boxed pattern
appended at `boxed_match_priority` when that priority is non-negative. -/
def lazy_latex_regex (latex_config : LatexExtractionConfig) : List (Pattern × Int) :=
  latex_anchor_tiers LatexBody.latex_envs latex_config.try_extract_without_anchor ++
  latex_anchor_tiers LatexBody.latex_fraction latex_config.try_extract_without_anchor ++
  (if 0 ≤ latex_config.boxed_match_priority then
    [(Pattern.latex_boxed, latex_config.boxed_match_priority)]
   else [])

/-- Embeds the inner `match` of `get_target_type_order`: latex sorts as 1,
plain expressions as 2. -/
def get_target_type_order : ExtractionTarget → Int
  | ExtractionTarget.latex _ => 1
  | ExtractionTarget.expr _ => 2

/-- Dispatch to the right library builder, as in the comprehension inside
`get_extraction_regexes`. -/
def regexesFor : ExtractionTarget → List (Pattern × Int)
  | ExtractionTarget.latex cfg => lazy_latex_regex cfg
  | ExtractionTarget.expr cfg => lazy_expr_regex cfg

/-- The sort relation of `sorted(extraction_regexes, key=get_target_type_order)`.
Python `sorted` is the stable sort by this total preorder, which
`List.insertionSort` implements. -/
def targetOrderRel (a b : List (Pattern × Int) × ExtractionTarget) : Prop :=
  get_target_type_order a.2 ≤ get_target_type_order b.2

instance : DecidableRel targetOrderRel := fun a b =>
  inferInstanceAs (Decidable (get_target_type_order a.2 ≤ get_target_type_order b.2))

instance : IsTotal (List (Pattern × Int) × ExtractionTarget) targetOrderRel :=
  ⟨fun a b => Int.le_total (get_target_type_order a.2) (get_target_type_order b.2)⟩

instance : IsTrans (List (Pattern × Int) × ExtractionTarget) targetOrderRel :=
  ⟨fun _ _ _ h1 h2 => le_trans h1 h2⟩

/-- Embeds `get_extraction_regexes`: build each target's library, then sort
the pairs so latex targets come before expression targets (stable). -/
def get_extraction_regexes (target_types : List ExtractionTarget) :
    List (List (Pattern × Int) × ExtractionTarget) :=
  (target_types.map (fun t => (regexesFor t, t))).insertionSort targetOrderRel

/-- Whether a target is the latex kind. -/
def isLatexKind : ExtractionTarget → Bool
  | ExtractionTarget.latex _ => true
  | ExtractionTarget.expr _ => false

/-- The external services consumed by `extract_match`: the latex
normalizer, and the two timeout-guarded algebra-service parsers
(`.error ()` models any raised exception, including a timeout). -/
structure AlgebraOracles where
  normalize_latex : String → NormalizationConfig → String
  parse_latex_with_timeout : String → Except Unit Value
  parse_expr_with_timeout : String → Except Unit Value

/-- Embeds `extract_match`: dispatch on the target kind. -/
def extract_match (O : AlgebraOracles) (m : MatchGroups)
    (target_type : ExtractionTarget) : Option Value × String :=
  match target_type with
  | ExtractionTarget.latex cfg =>
      extract_latex O.normalize_latex O.parse_latex_with_timeout m cfg
  | ExtractionTarget.expr _ => extract_expr O.parse_expr_with_timeout m

/-- A regex match as `re.finditer` yields it: `match.start()`,
`match.end()` (called `stop` here, `end` being a Lean keyword), and the
named capture groups. -/
structure RegexMatch where
  start : ℕ
  stop : ℕ
  groups : MatchGroups
deriving DecidableEq

/-- The tuple `(match, match.start(), match.end(), target_type)` built in
`matches_with_pos`. -/
structure Candidate where
  m : RegexMatch
  start : ℕ
  stop : ℕ
  target_type : ExtractionTarget
deriving DecidableEq

/-- The flattened `(pattern, target_type, priority)` triple of
`all_patterns`. -/
structure PatEntry where
  pattern : Pattern
  target_type : ExtractionTarget
  priority : Int
deriving DecidableEq

/-- Embeds the `all_patterns` comprehension: flatten every library, keeping
outer order over `target_res` and inner order over each library. -/
def all_patterns (target_res : List (List (Pattern × Int) × ExtractionTarget)) :
    List PatEntry :=
  target_res.flatMap (fun tr => tr.1.map (fun pp => ⟨pp.1, tr.2, pp.2⟩))

/-- Sort relation of `sorted(all_patterns, key=lambda x: x[2])` (stable,
ascending priority). -/
def priorityRel (a b : PatEntry) : Prop := a.priority ≤ b.priority

instance : DecidableRel priorityRel := fun a b =>
  inferInstanceAs (Decidable (a.priority ≤ b.priority))

instance : IsTotal PatEntry priorityRel :=
  ⟨fun a b => Int.le_total a.priority b.priority⟩

instance : IsTrans PatEntry priorityRel := ⟨fun _ _ _ h1 h2 => le_trans h1 h2⟩

/-- Embeds `groupby(sorted(all_patterns, key=x[2]), key=x[2])`: stable sort
by priority, then split into runs of equal priority. -/
def priority_groups (target_res : List (List (Pattern × Int) × ExtractionTarget)) :
    List (List PatEntry) :=
  ((all_patterns target_res).insertionSort priorityRel).splitBy
    (fun a b => a.priority == b.priority)

/-- Embeds the `matches_with_pos` generator of one priority group: all
matches of every pattern of the group, in pattern order then match order. -/
def matches_with_pos (finditer : Pattern → String → List RegexMatch)
    (pred : String) (patterns_group : List PatEntry) : List Candidate :=
  patterns_group.flatMap (fun pe =>
    (finditer pe.pattern pred).map (fun m => ⟨m, m.start, m.stop, pe.target_type⟩))

/-- Sort relation of `sorted(matches_with_pos, key=lambda x: (x[2], -x[1]),
reverse=True)`: `a` may precede `b` iff `(a.stop, -a.start)` is
lexicographically at least `(b.stop, -b.start)` — end offset descending,
ties by start offset ascending.  Python's `sorted` with `reverse=True` is
the stable sort by this total preorder. -/
def matchPosRel (a b : Candidate) : Prop :=
  b.stop < a.stop ∨ (b.stop = a.stop ∧ a.start ≤ b.start)

instance : DecidableRel matchPosRel := fun a b =>
  inferInstanceAs (Decidable (b.stop < a.stop ∨ (b.stop = a.stop ∧ a.start ≤ b.start)))

instance : IsTotal Candidate matchPosRel :=
  ⟨fun a b => by unfold matchPosRel; omega⟩

instance : IsTrans Candidate matchPosRel :=
  ⟨fun a b c h1 h2 => by unfold matchPosRel at h1 h2 ⊢; omega⟩

/-- The sorted candidate list the inner loop walks. -/
def sortMatches (l : List Candidate) : List Candidate :=
  l.insertionSort matchPosRel

/-- The `extraction_mode` literal. -/
inductive ExtractionMode where
  | first_match
  | any_match
deriving DecidableEq

/-- The `fallback_mode` literal. -/
inductive FallbackMode where
  | no_fallback
  | first_match
deriving DecidableEq

/-- The loop state of `extract_target_from_pred`: the two accumulator lists
and the `match_found` flag. -/
structure MatcherState where
  extracted_predictions : List Value
  fallbacks : List String
  match_found : Bool
deriving DecidableEq

/-- Embeds `if str_fallback: fallbacks.append(str_fallback)`. -/
def recordFallback (st : MatcherState) (fb : String) : MatcherState :=
  if fb ≠ "" then { st with fallbacks := st.fallbacks ++ [fb] } else st

/-- Embeds the inner `for match, _, _, target_type in matches_with_pos`
loop: record the fallback, stop with the value on success, and otherwise
continue unless `extraction_mode == "first_match"`. -/
def processGroup (O : AlgebraOracles) (extraction_mode : ExtractionMode) :
    List Candidate → MatcherState → MatcherState
  | [], st => st
  | c :: rest, st =>
      let r := extract_match O c.m.groups c.target_type
      let st1 := recordFallback st r.2
      match r.1 with
      | some v =>
          { st1 with extracted_predictions := st1.extracted_predictions ++ [v],
                     match_found := true }
      | none =>
          if extraction_mode = ExtractionMode.first_match then st1
          else processGroup O extraction_mode rest st1

/-- Embeds the outer loop over priority groups, with the early exit
`if extracted_predictions or (match_found and extraction_mode == "first_match")`. -/
def runGroups (O : AlgebraOracles) (finditer : Pattern → String → List RegexMatch)
    (pred : String) (extraction_mode : ExtractionMode) :
    List (List PatEntry) → MatcherState → MatcherState
  | [], st => st
  | g :: gs, st =>
      let st1 := processGroup O extraction_mode
        (sortMatches (matches_with_pos finditer pred g)) st
      if st1.extracted_predictions ≠ [] ∨
          (st1.match_found = true ∧ extraction_mode = ExtractionMode.first_match) then
        st1
      else runGroups O finditer pred extraction_mode gs st1

/-- A returned element: a structured value or a raw fallback string (the
Python list mixes sympy objects and `str`). -/
inductive Extracted where
  | value (v : Value)
  | str (s : String)
deriving DecidableEq

/-- Embeds `extract_target_from_pred`: run the grouped matching loop from
the empty state, then append the first fallback when
`fallback_mode == "first_match"` and any fallback was recorded. -/
def extract_target_from_pred (O : AlgebraOracles)
    (finditer : Pattern → String → List RegexMatch) (pred : String)
    (target_res : List (List (Pattern × Int) × ExtractionTarget))
    (fallback_mode : FallbackMode) (extraction_mode : ExtractionMode) :
    List Extracted :=
  let st := runGroups O finditer pred extraction_mode (priority_groups target_res)
    ⟨[], [], false⟩
  let res := st.extracted_predictions.map Extracted.value
  match fallback_mode, st.fallbacks with
  | FallbackMode.first_match, fb :: _ => res ++ [Extracted.str fb]
  | _, _ => res

/-- Embeds `parse`: build (or reuse) the per-target libraries and delegate. -/
def parse (O : AlgebraOracles) (finditer : Pattern → String → List RegexMatch)
    (pred : String) (extraction_config : List ExtractionTarget)
    (fallback_mode : FallbackMode) (extraction_mode : ExtractionMode) :
    List Extracted :=
  extract_target_from_pred O finditer pred (get_extraction_regexes extraction_config)
    fallback_mode extraction_mode

/-- The default `extraction_config` of `parse`. -/
def defaultExtractionConfig : List ExtractionTarget :=
  [ExtractionTarget.latex defaultLatexExtractionConfig, ExtractionTarget.expr ⟨true⟩]

/-- The value of the first candidate in a list whose extraction succeeds,
if any. -/
def firstSuccess (O : AlgebraOracles) : List Candidate → Option Value
  | [] => none
  | c :: rest =>
      match (extract_match O c.m.groups c.target_type).1 with
      | some v => some v
      | none => firstSuccess O rest

/-- Number of structured (non-string) values in a result list. -/
def countValues (l : List Extracted) : ℕ :=
  (l.filter (fun e => match e with | Extracted.value _ => true | _ => false)).length

/-- The candidates a group's inner loop attempts when no extraction
succeeds: only the first of the sorted list under
`extraction_mode == "first_match"`, all of them otherwise. -/
def attemptedCands (extraction_mode : ExtractionMode) (l : List Candidate) :
    List Candidate :=
  if extraction_mode = ExtractionMode.first_match then l.take 1 else l

/-- The non-empty fallback strings of a candidate list, in order. -/
def fallbacksOf (O : AlgebraOracles) (l : List Candidate) : List String :=
  l.flatMap (fun c =>
    if (extract_match O c.m.groups c.target_type).2 ≠ "" then
      [(extract_match O c.m.groups c.target_type).2]
    else [])

/-- The fallback strings one priority group contributes when every
extraction in it fails. -/
def group_fallbacks (O : AlgebraOracles) (finditer : Pattern → String → List RegexMatch)
    (pred : String) (extraction_mode : ExtractionMode) (g : List PatEntry) :
    List String :=
  fallbacksOf O (attemptedCands extraction_mode (sortMatches (matches_with_pos finditer pred g)))

/-- All fallback strings recorded over a whole run in which every
extraction fails, in encounter order. -/
def all_fallbacks (O : AlgebraOracles) (finditer : Pattern → String → List RegexMatch)
    (pred : String) (target_res : List (List (Pattern × Int) × ExtractionTarget))
    (extraction_mode : ExtractionMode) : List String :=
  (priority_groups target_res).flatMap (group_fallbacks O finditer pred extraction_mode)

/-- Concrete oracles: identity normalization, algebra service that always
fails to parse. -/
def O0 : AlgebraOracles :=
  ⟨fun s _ => s, fun _ => Except.error (), fun _ => Except.error ()⟩

/-- Match groups carrying only a bare integer capture (`integer3`). -/
def gInt (s : String) : MatchGroups := groupsOf "" "" "" "" "" "" s ""

/-- A bare-number match at offsets 2–5. -/
def mA : RegexMatch := ⟨2, 5, gInt "2"⟩

/-- A bare-number match at offsets 0–5 (same end offset as `mA`, smaller
start offset). -/
def mB : RegexMatch := ⟨0, 5, gInt "1"⟩

/-- The plain-expression target with anchorless extraction enabled. -/
def exprTarget : ExtractionTarget := ExtractionTarget.expr ⟨true⟩

/-- A regex engine in which the bare-number pattern finds `mA` and `mB` and
every other pattern finds nothing. -/
def fiC1 : Pattern → String → List RegexMatch := fun p _ =>
  if p = Pattern.number_with_anchors then [mA, mB] else []

/-- `mA` as a candidate tuple. -/
def candA : Candidate := ⟨mA, 2, 5, exprTarget⟩

/-- `mB` as a candidate tuple. -/
def candB : Candidate := ⟨mB, 0, 5, exprTarget⟩

/-- Match groups of a thousands-separated number, `"1,234.56"` (regex
format 1: `integer1`/`decimal1`). -/
def mSep : MatchGroups := groupsOf "" "1,234" ".56" "" "" "" "" ""

/-- Match groups of the same number without separators, `"1234.56"` (regex
format 2: `integer2`/`decimal2`). -/
def mPlain : MatchGroups := groupsOf "" "" "" "1234" ".56" "" "" ""

/-- Match groups of `"50%"`: a bare integer plus the percent marker. -/
def m50pct : MatchGroups := groupsOf "" "" "" "" "" "" "50" "%"

/-- Match groups of a boxed-latex capture `x`. -/
def mBoxedX : MatchGroups := latexGroupsOf "" "" "" "" "" "" "x" ""

/-- Match groups carrying only an arithmetic-expression capture `1+2`. -/
def mExprOnly : MatchGroups := groupsOf "1+2" "" "" "" "" "" "" ""

/-- A regex engine in which only the anchorless expression pattern matches,
yielding one `1+2` match. -/
def fiC5 : Pattern → String → List RegexMatch := fun p _ =>
  if p = Pattern.expr_with_anchors then [⟨0, 3, mExprOnly⟩] else []

end MathVerify

namespace MathVerify

/-- Unfolding equation for `processGroup` on a non-empty candidate list. -/
theorem processGroup_cons (O : AlgebraOracles) (em : ExtractionMode)
    (c : Candidate) (rest : List Candidate) (st : MatcherState) :
    processGroup O em (c :: rest) st =
      (match (extract_match O c.m.groups c.target_type).1 with
       | some v =>
           { recordFallback st (extract_match O c.m.groups c.target_type).2 with
             extracted_predictions :=
               (recordFallback st (extract_match O c.m.groups c.target_type).2).extracted_predictions
                 ++ [v],
             match_found := true }
       | none =>
           if em = ExtractionMode.first_match then
             recordFallback st (extract_match O c.m.groups c.target_type).2
           else
             processGroup O em rest
               (recordFallback st (extract_match O c.m.groups c.target_type).2)) := rfl

/-- `recordFallback` keeps the extracted list. -/
theorem recordFallback_extracted (st : MatcherState) (fb : String) :
    (recordFallback st fb).extracted_predictions = st.extracted_predictions := by
  unfold recordFallback; split <;> rfl

/-- `recordFallback` keeps the `match_found` flag. -/
theorem recordFallback_match_found (st : MatcherState) (fb : String) :
    (recordFallback st fb).match_found = st.match_found := by
  unfold recordFallback; split <;> rfl

/-- `recordFallback` appends the fallback exactly when it is non-empty. -/
theorem recordFallback_fallbacks (st : MatcherState) (fb : String) :
    (recordFallback st fb).fallbacks =
      st.fallbacks ++ (if fb ≠ "" then [fb] else []) := by
  unfold recordFallback; split <;> simp_all

/-- A group walk either leaves the extracted list untouched (and the flag),
or appends exactly one value and sets the flag. -/
theorem processGroup_shape (O : AlgebraOracles) (em : ExtractionMode)
    (l : List Candidate) : ∀ st : MatcherState,
    ((processGroup O em l st).extracted_predictions = st.extracted_predictions ∧
      (processGroup O em l st).match_found = st.match_found) ∨
    ∃ v, (processGroup O em l st).extracted_predictions = st.extracted_predictions ++ [v] ∧
      (processGroup O em l st).match_found = true := by
  induction l with
  | nil => intro st; exact Or.inl ⟨rfl, rfl⟩
  | cons c rest ih =>
      intro st
      rw [processGroup_cons]
      cases hr : (extract_match O c.m.groups c.target_type).1 with
      | some v =>
          exact Or.inr ⟨v, by simp [recordFallback_extracted], by simp⟩
      | none =>
          by_cases hem : em = ExtractionMode.first_match
          · rw [if_pos hem]
            exact Or.inl ⟨recordFallback_extracted st _, recordFallback_match_found st _⟩
          · rw [if_neg hem]
            rcases ih (recordFallback st (extract_match O c.m.groups c.target_type).2) with
              ⟨h1, h2⟩ | ⟨v, h1, h2⟩
            · exact Or.inl ⟨h1.trans (recordFallback_extracted st _),
                h2.trans (recordFallback_match_found st _)⟩
            · exact Or.inr ⟨v, by rw [h1, recordFallback_extracted], h2⟩

/-- In `any_match` mode the group walk appends exactly the first
successfully extracted value of the (already sorted) candidate list. -/
theorem processGroup_extracted_any (O : AlgebraOracles) (l : List Candidate) :
    ∀ st : MatcherState,
    (processGroup O ExtractionMode.any_match l st).extracted_predictions =
      st.extracted_predictions ++ (firstSuccess O l).toList := by
  induction l with
  | nil => intro st; simp [processGroup, firstSuccess]
  | cons c rest ih =>
      intro st
      rw [processGroup_cons]
      cases hr : (extract_match O c.m.groups c.target_type).1 with
      | some v => simp [firstSuccess, hr, recordFallback_extracted]
      | none =>
          rw [if_neg (by simp)]
          rw [ih, recordFallback_extracted]
          simp [firstSuccess, hr]

/-- When every extraction in the group fails, the walk only records the
fallbacks of the attempted candidates. -/
theorem processGroup_allfail (O : AlgebraOracles) (em : ExtractionMode)
    (l : List Candidate) : ∀ st : MatcherState,
    (∀ c ∈ l, (extract_match O c.m.groups c.target_type).1 = none) →
    (processGroup O em l st).extracted_predictions = st.extracted_predictions ∧
    (processGroup O em l st).match_found = st.match_found ∧
    (processGroup O em l st).fallbacks =
      st.fallbacks ++ fallbacksOf O (attemptedCands em l) := by
  induction l with
  | nil =>
      intro st _
      refine ⟨rfl, rfl, ?_⟩
      cases em <;> simp [processGroup, fallbacksOf, attemptedCands]
  | cons c rest ih =>
      intro st h
      rw [processGroup_cons, h c (List.mem_cons_self c rest)]
      by_cases hem : em = ExtractionMode.first_match
      · subst hem
        rw [if_pos rfl]
        refine ⟨recordFallback_extracted st _, recordFallback_match_found st _, ?_⟩
        rw [recordFallback_fallbacks]
        simp [attemptedCands, fallbacksOf]
      · rw [if_neg hem]
        obtain ⟨h1, h2, h3⟩ :=
          ih (recordFallback st (extract_match O c.m.groups c.target_type).2)
            (fun c2 hc2 => h c2 (List.mem_cons_of_mem c hc2))
        have hem2 : em = ExtractionMode.any_match := by cases em <;> simp_all
        subst hem2
        refine ⟨h1.trans (recordFallback_extracted st _),
          h2.trans (recordFallback_match_found st _), ?_⟩
        rw [h3, recordFallback_fallbacks]
        simp [attemptedCands, fallbacksOf, List.append_assoc]

/-- Unfolding equation for `runGroups` on a non-empty group list. -/
theorem runGroups_cons (O : AlgebraOracles)
    (finditer : Pattern → String → List RegexMatch) (pred : String)
    (em : ExtractionMode) (g : List PatEntry) (gs : List (List PatEntry))
    (st : MatcherState) :
    runGroups O finditer pred em (g :: gs) st =
      (if (processGroup O em (sortMatches (matches_with_pos finditer pred g)) st).extracted_predictions ≠ [] ∨
          ((processGroup O em (sortMatches (matches_with_pos finditer pred g)) st).match_found = true ∧
            em = ExtractionMode.first_match) then
        processGroup O em (sortMatches (matches_with_pos finditer pred g)) st
      else
        runGroups O finditer pred em gs
          (processGroup O em (sortMatches (matches_with_pos finditer pred g)) st)) := rfl

/-- Starting from an empty extracted list, the whole grouped run ends with
at most one extracted value. -/
theorem runGroups_extracted_shape (O : AlgebraOracles)
    (finditer : Pattern → String → List RegexMatch) (pred : String)
    (em : ExtractionMode) (gs : List (List PatEntry)) :
    ∀ st : MatcherState, st.extracted_predictions = [] →
    (runGroups O finditer pred em gs st).extracted_predictions = [] ∨
    ∃ v, (runGroups O finditer pred em gs st).extracted_predictions = [v] := by
  induction gs with
  | nil => intro st h; left; simpa [runGroups]
  | cons g gs ih =>
      intro st h
      rw [runGroups_cons]
      rcases processGroup_shape O em (sortMatches (matches_with_pos finditer pred g)) st with
        ⟨h1, _⟩ | ⟨v, h1, _⟩
      · rw [h] at h1
        split
        · left; exact h1
        · exact ih _ h1
      · rw [h] at h1
        rw [if_pos (Or.inl (by rw [h1]; simp))]
        right; exact ⟨v, by rw [h1]; simp⟩

/-- When every extraction of every group fails, the run extracts nothing
and collects exactly the attempted fallbacks, in encounter order. -/
theorem runGroups_allfail (O : AlgebraOracles)
    (finditer : Pattern → String → List RegexMatch) (pred : String)
    (em : ExtractionMode) (gs : List (List PatEntry)) :
    ∀ st : MatcherState,
    (∀ g ∈ gs, ∀ c ∈ sortMatches (matches_with_pos finditer pred g),
      (extract_match O c.m.groups c.target_type).1 = none) →
    st.extracted_predictions = [] → st.match_found = false →
    (runGroups O finditer pred em gs st).extracted_predictions = [] ∧
    (runGroups O finditer pred em gs st).fallbacks =
      st.fallbacks ++ gs.flatMap (group_fallbacks O finditer pred em) := by
  induction gs with
  | nil => intro st _ h1 _; simp [runGroups, h1]
  | cons g gs ih =>
      intro st h h1 h2
      rw [runGroups_cons]
      obtain ⟨p1, p2, p3⟩ :=
        processGroup_allfail O em (sortMatches (matches_with_pos finditer pred g)) st
          (h g (List.mem_cons_self g gs))
      rw [if_neg (by rw [p1, p2, h1, h2]; simp)]
      obtain ⟨q1, q2⟩ := ih _ (fun g2 hg2 => h g2 (List.mem_cons_of_mem g hg2))
        (p1.trans h1) (p2.trans h2)
      refine ⟨q1, ?_⟩
      rw [q2, p3]
      simp [group_fallbacks, List.append_assoc]

/-- The result of `extract_target_from_pred` is an optional single value
followed by an optional single fallback string. -/
theorem extract_target_shape (O : AlgebraOracles)
    (finditer : Pattern → String → List RegexMatch) (pred : String)
    (target_res : List (List (Pattern × Int) × ExtractionTarget))
    (fm : FallbackMode) (em : ExtractionMode) :
    ∃ (vq : Option Value) (sq : Option String),
      extract_target_from_pred O finditer pred target_res fm em =
        vq.toList.map Extracted.value ++ sq.toList.map Extracted.str := by
  simp only [extract_target_from_pred]
  rcases runGroups_extracted_shape O finditer pred em (priority_groups target_res)
    ⟨[], [], false⟩ rfl with h | ⟨v, h⟩ <;>
    rw [h] <;> cases fm <;>
    cases hfb : (runGroups O finditer pred em (priority_groups target_res)
      ⟨[], [], false⟩).fallbacks
  · exact ⟨none, none, by simp⟩
  · exact ⟨none, none, by simp⟩
  · exact ⟨none, none, by simp⟩
  · rename_i fb rest; exact ⟨none, some fb, by simp⟩
  · exact ⟨some v, none, by simp⟩
  · exact ⟨some v, none, by simp⟩
  · exact ⟨some v, none, by simp⟩
  · rename_i fb rest; exact ⟨some v, some fb, by simp⟩

/-- C1 (counterexample): two candidate matches sharing the end offset 5,
with start offsets 0 and 2, are attempted smallest-start first — `sortMatches`
puts the widest/leftmost span first, not the narrowest/rightmost one — and
the matcher consequently selects the smaller-start candidate's value
(`Value.num 1` from `candB`) even though the larger-start candidate
(`candA`, value `Value.num 2`) also parses; the claimed order (largest start
offset first at equal end offsets) is therefore false on the code. -/
theorem c1_order_counterexample :
    (candA.stop = candB.stop ∧ candB.start < candA.start) ∧
    sortMatches [candA, candB] = [candB, candA] ∧
    extract_expr O0.parse_expr_with_timeout candB.m.groups = (some (Value.num 1), "1") ∧
    extract_expr O0.parse_expr_with_timeout candA.m.groups = (some (Value.num 2), "2") ∧
    extract_target_from_pred O0 fiC1 "x" [(lazy_expr_regex ⟨true⟩, exprTarget)]
      FallbackMode.no_fallback ExtractionMode.any_match =
      [Extracted.value (Value.num 1)] := by decide

/-- C1 (amended): for every input text and every priority group, the
candidate matches are attempted in the order given by `matchPosRel` —
largest end offset first, and among matches with equal end offset, the one
with the SMALLEST start offset first (the widest/leftmost span); under
`any_match` the value appended by the group walk is that of the first
candidate in this order that successfully parses. -/
theorem c1_amended_order (O : AlgebraOracles)
    (finditer : Pattern → String → List RegexMatch) (pred : String)
    (g : List PatEntry) :
    List.Sorted matchPosRel (sortMatches (matches_with_pos finditer pred g)) ∧
    ∀ st : MatcherState,
      (processGroup O ExtractionMode.any_match
        (sortMatches (matches_with_pos finditer pred g)) st).extracted_predictions =
      st.extracted_predictions ++
        (firstSuccess O (sortMatches (matches_with_pos finditer pred g))).toList :=
  ⟨List.sorted_insertionSort matchPosRel (matches_with_pos finditer pred g),
   fun st => processGroup_extracted_any O
     (sortMatches (matches_with_pos finditer pred g)) st⟩

/-- C2 (counterexample): for the thousands-separated capture `"1,234.56"`
the extractor pairs the value with the normalized string `"1234.56"`, which
is not the literal matched span (the span contains `"1,234.56"` verbatim). -/
theorem c2_span_counterexample :
    mSep.integer1 ++ mSep.decimal1 = "1,234.56" ∧
    (extract_expr (fun _ => Except.error ()) mSep).2 = "1234.56" ∧
    ("1234.56" : String) ≠ "1,234.56" := by decide

/-- C2 (amended): the string paired with the extracted value is, in the
number branch, the normalized number string (`number_str_of`: separators
and leading zeros stripped, decimal comma turned into a dot) rather than the
matched span; in the expression branch it is the captured expression text
verbatim; and in the latex branch it is the output of the external
normalizer on the captured latex, not the raw span. -/
theorem c2_amended_fallback_strings (p pl : String → Except Unit Value)
    (nrm : String → NormalizationConfig → String)
    (cfg : LatexExtractionConfig) (m : MatchGroups) :
    (extract_expr p m).2 =
      (if integerGroup m ≠ "" ∨ decimalGroup m ≠ "" then number_str_of m else m.expr) ∧
    (extract_latex nrm pl m cfg).2 = nrm (latexGroup m) cfg.normalization_config := by
  constructor
  · simp only [extract_expr, number_str_of]
    by_cases h : integerGroup m ≠ "" ∨ decimalGroup m ≠ ""
    · rw [if_pos h, if_pos h]
    · rw [if_neg h, if_neg h]
      by_cases h2 : m.expr ≠ ""
      · rw [if_pos h2]
        cases p (replaceCaret (replaceChar '\n' ' ' m.expr)) <;> rfl
      · rw [if_neg h2]
  · simp only [extract_latex]
    cases pl (nrm (latexGroup m) cfg.normalization_config) <;> rfl

/-- C3: algebra-service failures (the oracle returning `.error ()`, which
models a timeout, malformed latex, or an unsupported construct) never
escape: `extract_latex` degrades to `(none, normalized fallback)`,
`extract_expr` degrades to `(none, captured expression)`, and in
`any_match` mode a failed candidate only records its fallback and the walk
continues with the next candidate. -/
theorem c3_failures_degrade (O : AlgebraOracles) (m : MatchGroups)
    (cfg : LatexExtractionConfig) :
    (O.parse_latex_with_timeout
        (O.normalize_latex (latexGroup m) cfg.normalization_config) = Except.error () →
      extract_latex O.normalize_latex O.parse_latex_with_timeout m cfg =
        (none, O.normalize_latex (latexGroup m) cfg.normalization_config)) ∧
    (integerGroup m = "" → decimalGroup m = "" →
      O.parse_expr_with_timeout (replaceCaret (replaceChar '\n' ' ' m.expr)) = Except.error () →
      extract_expr O.parse_expr_with_timeout m = (none, m.expr)) ∧
    (∀ (c : Candidate) (rest : List Candidate) (st : MatcherState),
      (extract_match O c.m.groups c.target_type).1 = none →
      processGroup O ExtractionMode.any_match (c :: rest) st =
        processGroup O ExtractionMode.any_match rest
          (recordFallback st (extract_match O c.m.groups c.target_type).2)) := by
  refine ⟨?_, ?_, ?_⟩
  · intro h
    simp only [extract_latex]
    rw [h]
  · intro h1 h2 h3
    simp only [extract_expr]
    rw [if_neg (by simp [h1, h2])]
    by_cases he : m.expr ≠ ""
    · rw [if_pos he, h3]
    · rw [if_neg he]
  · intro c rest st h
    rw [processGroup_cons, h]
    rw [if_neg (by simp)]

/-- C3 (witness): with an always-failing parse oracle, extracting the
boxed capture `x` yields no value together with the normalized fallback. -/
theorem c3_failures_degrade_witness :
    extract_latex O0.normalize_latex O0.parse_latex_with_timeout mBoxedX
      defaultLatexExtractionConfig = (none, "x") :=
  (c3_failures_degrade O0 mBoxedX defaultLatexExtractionConfig).1 rfl

/-- C4: under `extraction_mode = "first_match"` a `parse` call returns at
most one structured (non-string) value, whatever the text (regex oracle),
the algebra oracles, the configs and the fallback mode. -/
theorem c4_first_match_single_value (O : AlgebraOracles)
    (finditer : Pattern → String → List RegexMatch) (pred : String)
    (extraction_config : List ExtractionTarget) (fm : FallbackMode) :
    countValues (parse O finditer pred extraction_config fm
      ExtractionMode.first_match) ≤ 1 := by
  unfold parse
  obtain ⟨vq, sq, h⟩ := extract_target_shape O finditer pred
    (get_extraction_regexes extraction_config) fm ExtractionMode.first_match
  rw [h]
  cases vq <;> cases sq <;> simp [countValues]

/-- C5: when some pattern matched but no attempted candidate parses into a
structured value, and the encounter-ordered list of recorded (non-empty)
fallback strings starts with `fb`, a `parse` call with
`fallback_mode = "first_match"` returns exactly one element: that first
fallback string. -/
theorem c5_fallback_first_match (O : AlgebraOracles)
    (finditer : Pattern → String → List RegexMatch) (pred : String)
    (extraction_config : List ExtractionTarget) (em : ExtractionMode)
    (fb : String) (rest : List String)
    (hfail : ∀ g ∈ priority_groups (get_extraction_regexes extraction_config),
      ∀ c ∈ sortMatches (matches_with_pos finditer pred g),
        (extract_match O c.m.groups c.target_type).1 = none)
    (hfb : all_fallbacks O finditer pred (get_extraction_regexes extraction_config) em =
      fb :: rest) :
    parse O finditer pred extraction_config FallbackMode.first_match em =
      [Extracted.str fb] := by
  unfold parse
  simp only [extract_target_from_pred]
  obtain ⟨h1, h2⟩ := runGroups_allfail O finditer pred em
    (priority_groups (get_extraction_regexes extraction_config))
    ⟨[], [], false⟩ hfail rfl rfl
  rw [h1]
  rw [show (runGroups O finditer pred em
      (priority_groups (get_extraction_regexes extraction_config))
      ⟨[], [], false⟩).fallbacks = fb :: rest from h2.trans (by simpa [all_fallbacks] using hfb)]
  rfl

/-- C5 (witness): on a text where only the anchorless expression pattern
matches (capture `1+2`) and the algebra service always fails, `parse` with
first-match fallback returns exactly `["1+2"]`. -/
theorem c5_fallback_first_match_witness :
    parse O0 fiC5 "t" [exprTarget] FallbackMode.first_match ExtractionMode.any_match =
      [Extracted.str "1+2"] :=
  c5_fallback_first_match O0 fiC5 "t" [exprTarget] ExtractionMode.any_match
    "1+2" [] (by decide) (by decide)

/-- C6: whenever a number capture fires together with the percent marker,
the extracted value is the unevaluated product
`Mul(number, Rational(1, 100))` — structurally a product node, never a
plain number such as `0.5`. -/
theorem c6_percent_unevaluated (p : String → Except Unit Value) (m : MatchGroups)
    (hnum : integerGroup m ≠ "" ∨ decimalGroup m ≠ "") (hpct : m.percent ≠ "") :
    (extract_expr p m).1 =
      some (Value.mul (Value.num (decimalOfString (number_str_of m))) (Value.rat 1 100)) ∧
    ∀ q : ℚ, Value.mul (Value.num (decimalOfString (number_str_of m)))
      (Value.rat 1 100) ≠ Value.num q := by
  constructor
  · simp only [extract_expr]
    rw [if_pos hnum, if_pos hpct]
    rfl
  · intro q h
    exact Value.noConfusion h

/-- C6 (witness): `"50%"` extracts to `Mul(Number(50), Rational(1, 100))`,
which is not the evaluated number `50/100`. -/
theorem c6_percent_unevaluated_witness :
    (extract_expr (fun _ => Except.error ()) m50pct).1 =
      some (Value.mul (Value.num 50) (Value.rat 1 100)) ∧
    Value.mul (Value.num 50) (Value.rat 1 100) ≠ Value.num (mkRat 50 100) := by
  have h := c6_percent_unevaluated (fun _ => Except.error ()) m50pct
    (by decide) (by decide)
  exact ⟨h.1.trans (by decide), h.2 (mkRat 50 100)⟩

/-- C7: number normalization strips thousands separators (commas and
spaces) and leading zeros (re-inserting `"0"` when the integer part
empties) and rewrites a decimal comma to a dot, so the captures of
`"1,234.56"` and `"1234.56"` extract to the same numeric value, for every
algebra oracle. -/
theorem c7_thousands_normalization (p1 p2 : String → Except Unit Value) :
    extract_expr p1 mSep = extract_expr p2 mPlain ∧
    extract_expr p1 mSep = (some (Value.num (mkRat 123456 100)), "1234.56") ∧
    removeCommaSpace "1,234" = "1234" ∧
    removeCommaSpace "1 234" = "1234" ∧
    lstripZeros "0012" = "12" ∧
    number_str_of (groupsOf "" "" "" "000" ".5" "" "" "") = "0.5" ∧
    replaceChar ',' '.' ",56" = ".56" :=
  ⟨rfl, rfl, rfl, rfl, rfl, rfl, rfl⟩

/-- C8: for every sequence of target configurations, the ordered library
list handed to the matcher never places an expression-kind entry before a
latex-kind entry (every latex library precedes every expression library). -/
theorem c8_latex_before_expr (target_types : List ExtractionTarget) :
    (get_extraction_regexes target_types).Pairwise
      (fun a b => (isLatexKind a.2 || !isLatexKind b.2) = true) := by
  have hs := List.sorted_insertionSort targetOrderRel
    (target_types.map (fun t => (regexesFor t, t)))
  unfold get_extraction_regexes
  refine List.Pairwise.imp ?_ hs
  intro a b hab
  unfold targetOrderRel at hab
  cases ha : a.2 <;> cases hb : b.2 <;> rw [ha, hb] at hab <;>
    simp [get_target_type_order, isLatexKind] at hab ⊢

/-- C9: the latex library contains the boxed rule at priority
`boxed_match_priority` exactly when that priority is non-negative, and the
boxed pattern never appears at any other priority. -/
theorem c9_boxed_rule (cfg : LatexExtractionConfig) :
    ((Pattern.latex_boxed, cfg.boxed_match_priority) ∈ lazy_latex_regex cfg ↔
      0 ≤ cfg.boxed_match_priority) ∧
    ∀ pr : Int, (Pattern.latex_boxed, pr) ∈ lazy_latex_regex cfg →
      pr = cfg.boxed_match_priority := by
  obtain ⟨t, bp, nc⟩ := cfg
  constructor
  · constructor
    · intro hmem
      by_contra hneg
      rw [lazy_latex_regex, if_neg hneg] at hmem
      cases t <;> simp [latex_anchor_tiers] at hmem
    · intro hp
      rw [lazy_latex_regex, if_pos hp]
      simp
  · intro pr hmem
    by_cases hp : (0 : Int) ≤ bp
    · rw [lazy_latex_regex, if_pos hp] at hmem
      cases t <;> simpa [latex_anchor_tiers] using hmem
    · rw [lazy_latex_regex, if_neg hp] at hmem
      cases t <;> simp [latex_anchor_tiers] at hmem

/-- C9 (witness): with the default configuration (boxed priority 50) the
boxed rule is in the library at priority 50. -/
theorem c9_boxed_rule_witness :
    (Pattern.latex_boxed, (50 : Int)) ∈ lazy_latex_regex defaultLatexExtractionConfig :=
  (c9_boxed_rule defaultLatexExtractionConfig).1.mpr (by decide)

/-- C10: for every text (regex oracle), oracles, configs, fallback mode and
extraction mode, a `parse` result is an optional single structured value
followed by an optional single fallback string — hence at most one
structured value and at most two elements, with any string last. -/
theorem c10_result_shape (O : AlgebraOracles)
    (finditer : Pattern → String → List RegexMatch) (pred : String)
    (extraction_config : List ExtractionTarget) (fm : FallbackMode)
    (em : ExtractionMode) :
    (∃ (vq : Option Value) (sq : Option String),
      parse O finditer pred extraction_config fm em =
        vq.toList.map Extracted.value ++ sq.toList.map Extracted.str) ∧
    countValues (parse O finditer pred extraction_config fm em) ≤ 1 ∧
    (parse O finditer pred extraction_config fm em).length ≤ 2 := by
  obtain ⟨vq, sq, h⟩ := extract_target_shape O finditer pred
    (get_extraction_regexes extraction_config) fm em
  refine ⟨⟨vq, sq, h⟩, ?_, ?_⟩ <;>
    rw [show parse O finditer pred extraction_config fm em =
      vq.toList.map Extracted.value ++ sq.toList.map Extracted.str from h] <;>
    cases vq <;> cases sq <;> simp [countValues]

end MathVerify

